import Mathlib

/-!
# Agent action dispatch and pose synchronisation

A shallow embedding of `esp/agent/Agent.cpp`: the action-space data model, the
dispatch of a named action to the body node or to every sensor node, the pose
transfer `getState` / `setState`, the construction of the sensor suite and the
equality operators on `ActionSpec` and `AgentConfiguration`.

Conventions of the embedding.

* Coordinates of positions and rotations are exact rationals (`ℚ`); every
  rounding operation of the numeric libraries (Eigen's `norm`, Magnum's
  `normalized` and `epsilon`) is a field of `Collaborators`, so no theorem
  depends on how they round.
* The `float` values that the equality operators compare (the scalar fields
  of a configuration, the actuation values) are of type `Scalar`, which has
  not-a-number next to the numbers; `Scalar.eq` is the `==` of `float`.
* `std::map<std::string, V>` is its sequence of `(key, value)` pairs in
  iteration order (`StdMap V`); `StdMap.WF` says the keys are strictly
  increasing, which every real `std::map` satisfies.
* `std::shared_ptr<T>` is the pointee.
* A thrown `std::out_of_range` and a failed glog `CHECK` are values of `Fault`
  returned through `Except`.
* Calls made to a collaborator are returned as a list next to the new state,
  so that "how many calls, on which node, with which arguments" is a statement
  about a value.
-/

namespace esp

/-! ## Vectors and transformations -/

/-- Three-component vector (`vec3f`, `Magnum::Vector3`). -/
structure Vec3 where
  x : ℚ
  y : ℚ
  z : ℚ
deriving DecidableEq

/-- Four-component vector (`vec4f`): quaternion coefficients in (x, y, z, w) order. -/
structure Vec4 where
  x : ℚ
  y : ℚ
  z : ℚ
  w : ℚ
deriving DecidableEq

/-- Dot product of two 3-vectors. -/
def Vec3.dot (a b : Vec3) : ℚ := a.x * b.x + a.y * b.y + a.z * b.z

/-- Sum of the squares of the four coefficients. -/
def Vec4.dot (a : Vec4) : ℚ := a.x * a.x + a.y * a.y + a.z * a.z + a.w * a.w

/-- An absolute transformation matrix: the three rows of its linear part and
its translation column. -/
structure Affine where
  row0 : Vec3
  row1 : Vec3
  row2 : Vec3
  translation : Vec3
deriving DecidableEq

/-- Image of a point under an absolute transformation. -/
def Affine.transformPoint (m : Affine) (p : Vec3) : Vec3 :=
  { x := m.row0.dot p + m.translation.x
    y := m.row1.dot p + m.translation.y
    z := m.row2.dot p + m.translation.z }

/-- The identity matrix. -/
def Affine.identity : Affine :=
  { row0 := ⟨1, 0, 0⟩, row1 := ⟨0, 1, 0⟩, row2 := ⟨0, 0, 1⟩, translation := ⟨0, 0, 0⟩ }

/-- Local transformation of a scene node: the translation and the rotation
quaternion that `setTranslation`, `setRotation` and `rotation()` access. -/
structure Transformation where
  translation : Vec3
  rotation : Vec4
deriving DecidableEq

/-- Transformation of a freshly created node. -/
def Transformation.identity : Transformation :=
  { translation := ⟨0, 0, 0⟩, rotation := ⟨0, 0, 0, 1⟩ }

/-! ## Floats under `==` -/

/-- A `float` as `==` tells values apart: not-a-number, the two infinities, or
a number (the two signed zeros compare equal and are the one number 0). -/
inductive Scalar where
  | nan
  | posInf
  | negInf
  | num (x : ℚ)
deriving DecidableEq

/-- The operator `==` on `float`: false as soon as one side is not-a-number,
otherwise equality of the values. -/
def Scalar.eq : Scalar → Scalar → Bool
  | .nan, _ => false
  | _, .nan => false
  | a, b => a == b

/-! ## `std::map` with string keys -/

/-- The entries of a `std::map<std::string, V>` in iteration order. -/
abbrev StdMap (V : Type) := List (String × V)

namespace StdMap

variable {V : Type}

/-- Keys in iteration order. -/
def keys (m : StdMap V) : List String := m.map Prod.fst

/-- Invariant of `std::map`: keys strictly increasing, hence unique. -/
def WF (m : StdMap V) : Prop := m.keys.Pairwise (· < ·)

/-- Lookup as done by `std::map::find`: the value stored under the key, or
`none` for `end()`. -/
def find : StdMap V → String → Option V
  | [], _ => none
  | (k', v) :: rest, k => if k' = k then some v else find rest k

/-- Assignment as done by `m[k] = v`: replaces the value of an existing key,
otherwise inserts the entry at its place in key order. -/
def assign (k : String) (v : V) : StdMap V → StdMap V
  | [] => [(k, v)]
  | (k', v') :: rest =>
    if k < k' then (k, v) :: (k', v') :: rest
    else if k = k' then (k, v) :: rest
    else (k', v') :: assign k v rest

/-- The map obtained by assigning the entries of a sequence one after the other. -/
def ofList (l : List (String × V)) : StdMap V :=
  l.foldl (fun m p => m.assign p.1 p.2) []

/-- The operator `==` of `std::map`: same size, and entry by entry in key
order the same key and values that compare equal under `veq`. -/
def eqWith (veq : V → V → Bool) (a b : StdMap V) : Bool :=
  a.length == b.length &&
    (List.zipWith (fun p q => p.1 == q.1 && veq p.2 q.2) a b).all id

end StdMap

/-! ## Faults -/

/-- The two ways an operation of the agent ends without returning. -/
inductive Fault where
  /-- `std::map::at` on a missing key (`std::out_of_range`). -/
  | outOfRange (key : String)
  /-- The `CHECK_LT` of `setState` failed on this rotation. -/
  | invalidRotation (rotation : Vec4)
deriving DecidableEq

/-- Checked lookup as done by `std::map::at`. -/
def StdMap.at {V : Type} (m : StdMap V) (k : String) : Except Fault V :=
  match m.find k with
  | some v => .ok v
  | none => .error (.outOfRange k)

/-! ## Data model -/

/-- One named action and its numeric parameters. -/
structure ActionSpec where
  name : String
  actuation : StdMap Scalar
deriving DecidableEq

/-- Mapping from action name to `ActionSpec`. -/
abbrev ActionSpace := StdMap ActionSpec

/-- Descriptor of one sensor: identifier and pose relative to the body. -/
structure SensorSpec where
  uuid : String
  position : Vec3
  orientation : Vec3
deriving DecidableEq

/-- Static profile of an agent. -/
structure AgentConfiguration where
  height : Scalar
  radius : Scalar
  mass : Scalar
  linearAcceleration : Scalar
  angularAcceleration : Scalar
  linearFriction : Scalar
  angularFriction : Scalar
  coefficientOfRestitution : Scalar
  sensorSpecifications : List SensorSpec
  actionSpace : ActionSpace
  bodyType : String
deriving DecidableEq

/-- Snapshot of the pose exchanged with callers. -/
structure AgentState where
  position : Vec3
  rotation : Vec4
deriving DecidableEq

/-! ## Scene node of the agent -/

/-- Role tag of a scene node. -/
inductive SceneNodeType where
  | EMPTY
  | SENSOR
  | AGENT
  | CAMERA
deriving DecidableEq

/-- A node of the agent's subtree: the body node itself or its `i`-th child. -/
inductive NodeRef where
  | self
  | child (i : Nat)
deriving DecidableEq

/-- The body node as the agent sees it: the absolute transformation of its
parent, its role tag, its local transformation and the local transformations
of its children in creation order. -/
structure SceneNode where
  parentAbsolute : Affine
  type : SceneNodeType
  transformation : Transformation
  children : List Transformation
deriving DecidableEq

namespace SceneNode

/-- Tagging of the node, `setType`. -/
def setType (n : SceneNode) (t : SceneNodeType) : SceneNode := { n with type := t }

/-- Translation part of `absoluteTransformation()`: the parent's absolute
transformation applied to the local translation. -/
def absoluteTranslation (n : SceneNode) : Vec3 :=
  n.parentAbsolute.transformPoint n.transformation.translation

/-- Local rotation, `rotation()`. -/
def rotation (n : SceneNode) : Vec4 := n.transformation.rotation

/-- Writes the local translation, `setTranslation`. -/
def setTranslation (n : SceneNode) (v : Vec3) : SceneNode :=
  { n with transformation := { n.transformation with translation := v } }

/-- Writes the local rotation, `setRotation`. -/
def setRotation (n : SceneNode) (q : Vec4) : SceneNode :=
  { n with transformation := { n.transformation with rotation := q } }

/-- Appends a child with the identity transformation and returns its index,
`createChild`. -/
def createChild (n : SceneNode) : SceneNode × Nat :=
  ({ n with children := n.children ++ [Transformation.identity] }, n.children.length)

/-- Local transformation of a node of the subtree. -/
def transformationOf (n : SceneNode) : NodeRef → Option Transformation
  | .self => some n.transformation
  | .child i => n.children[i]?

/-- Overwrites the local transformation of a node of the subtree. -/
def setTransformation (n : SceneNode) (r : NodeRef) (t : Transformation) : SceneNode :=
  match r with
  | .self => { n with transformation := t }
  | .child i => { n with children := n.children.set i t }

end SceneNode

/-! ## Collaborators -/

/-- What the agent consumes from code outside `Agent.cpp`. -/
structure Collaborators where
  /-- The local transformation that `ObjectControls::action(object, actName,
  distance, applyFilter)` leaves on `object`, given the subtree before the call. -/
  move : SceneNode → NodeRef → String → Scalar → Bool → Transformation
  /-- The local transformation that `Sensor::setTransformationFromSpec` derives
  from the sensor's specification. -/
  transformationFromSpec : SensorSpec → Transformation
  /-- Eigen's `norm()` of the quaternion coefficients, as computed in
  single precision. -/
  norm : Vec4 → ℚ
  /-- The constant `Magnum::Math::TypeTraits<float>::epsilon()`. -/
  epsilon : ℚ
  /-- The quaternion `Magnum::Quaternion::normalized()`. -/
  normalized : Vec4 → Vec4
  /-- The operator `==` of `SensorSpec`. -/
  sensorSpecEq : SensorSpec → SensorSpec → Bool

/-- One call of `ObjectControls::action`. -/
structure ControlCall where
  object : NodeRef
  actName : String
  distance : Scalar
  applyFilter : Bool
deriving DecidableEq

/-- Effect of one call of `ObjectControls::action` on the subtree: the target
node receives the transformation computed by the movement filter. -/
def Collaborators.action (E : Collaborators) (n : SceneNode) (c : ControlCall) : SceneNode :=
  n.setTransformation c.object (E.move n c.object c.actName c.distance c.applyFilter)

/-! ## Sensors -/

/-- A sensing device: its specification and its own node, a child of the body
node (`object()`). -/
structure Sensor where
  spec : SensorSpec
  node : Nat
deriving DecidableEq

/-- Modelled from the spec: `Sensor::setTransformationFromSpec` (esp/sensor is
not part of the sources at hand); the device re-derives the transformation of
its own node from its original specification. -/
def Sensor.setTransformationFromSpec (E : Collaborators) (s : Sensor) (n : SceneNode) :
    SceneNode :=
  n.setTransformation (.child s.node) (E.transformationFromSpec s.spec)

/-- Ordered mapping from sensor identifier to sensing device. -/
abbrev SensorSuite := StdMap Sensor

/-- Modelled from the spec: `SensorSuite::add` (esp/sensor is not part of the
sources at hand); registers the device in the ordered mapping under the
identifier of its specification. -/
def SensorSuite.add (suite : SensorSuite) (s : Sensor) : SensorSuite :=
  StdMap.assign s.spec.uuid s suite

/-- Modelled from the spec: `PinholeCamera::create(sensorNode, spec)`
(esp/sensor is not part of the sources at hand); instantiates the device
attached to `sensorNode`, its node transformed from the specification. -/
def PinholeCamera.create (E : Collaborators) (n : SceneNode) (sensorNode : Nat)
    (spec : SensorSpec) : SceneNode × Sensor :=
  let s : Sensor := { spec := spec, node := sensorNode }
  (s.setTransformationFromSpec E n, s)

/-! ## The agent -/

/-- State of an `Agent`: `configuration_`, `sensors_` and the body node it is
attached to. -/
structure Agent where
  configuration : AgentConfiguration
  sensors : SensorSuite
  node : SceneNode
deriving DecidableEq

/-- The set `Agent::BodyActions`; only membership in it is ever asked. -/
def BodyActions : List String :=
  ["moveRight", "moveLeft", "moveForward", "moveBackward", "turnLeft", "turnRight"]

namespace Agent

/-- One step of the constructor's loop over the sensor specifications. -/
def addSensor (E : Collaborators) (ag : Agent) (spec : SensorSpec) : Agent :=
  let created := ag.node.createChild
  let camera := PinholeCamera.create E created.1 created.2 spec
  { ag with node := camera.1, sensors := SensorSuite.add ag.sensors camera.2 }

/-- The constructor `Agent::Agent(agentNode, cfg)`. -/
def create (E : Collaborators) (agentNode : SceneNode) (cfg : AgentConfiguration) : Agent :=
  cfg.sensorSpecifications.foldl (addSensor E)
    { configuration := cfg, sensors := [], node := agentNode.setType .AGENT }

/-- The method `Agent::hasAction`; the method is not `const`, so the state is
returned next to the answer. -/
def hasAction (ag : Agent) (actionName : String) : Bool × Agent :=
  let actionSpace := ag.configuration.actionSpace
  (!(actionSpace.find actionName).isNone, ag)

/-- The loop of `Agent::act` over `sensors_.getSensors()`: each iteration
looks the amount up and calls the movement filter on the sensor's node. -/
def actSensors (E : Collaborators) (actionSpec : ActionSpec) :
    List (String × Sensor) → SceneNode → List ControlCall →
      Except Fault (SceneNode × List ControlCall)
  | [], n, calls => .ok (n, calls)
  | p :: rest, n, calls =>
    match actionSpec.actuation.at "amount" with
    | .error e => .error e
    | .ok amount =>
      let c : ControlCall :=
        { object := .child p.2.node, actName := actionSpec.name,
          distance := amount, applyFilter := false }
      actSensors E actionSpec rest (E.action n c) (calls ++ [c])

/-- The method `Agent::act`: the returned flag, the state after the call and
the calls made to the movement filter, in order. -/
def act (E : Collaborators) (ag : Agent) (actionName : String) :
    Except Fault (Bool × Agent × List ControlCall) :=
  let has := ag.hasAction actionName
  if has.1 then
    match has.2.configuration.actionSpace.at actionName with
    | .error e => .error e
    | .ok actionSpec =>
      if BodyActions.contains actionSpec.name then
        match actionSpec.actuation.at "amount" with
        | .error e => .error e
        | .ok amount =>
          let c : ControlCall :=
            { object := .self, actName := actionSpec.name,
              distance := amount, applyFilter := true }
          .ok (true, { has.2 with node := E.action has.2.node c }, [c])
      else
        match actSensors E actionSpec has.2.sensors has.2.node [] with
        | .error e => .error e
        | .ok r => .ok (true, { has.2 with node := r.1 }, r.2)
  else
    .ok (false, has.2, [])

/-- The method `Agent::getState`: fills the position and the rotation of the
state handed in. -/
def getState (ag : Agent) (state : AgentState) : AgentState :=
  { state with
    position := ag.node.absoluteTranslation
    rotation := ag.node.rotation }

/-- The loop of `Agent::setState` over `sensors_.getSensors()`: the node after
the resets and the identifiers of the sensors reset, in order. -/
def resetSensorTransformations (E : Collaborators) :
    List (String × Sensor) → SceneNode → List String → SceneNode × List String
  | [], n, done => (n, done)
  | p :: rest, n, done =>
    resetSensorTransformations E rest (p.2.setTransformationFromSpec E n) (done ++ [p.1])

/-- The method `Agent::setState`: the state after the call and the
identifiers of the sensors whose `setTransformationFromSpec` was called. -/
def setState (E : Collaborators) (ag : Agent) (state : AgentState) (resetSensors : Bool) :
    Except Fault (Agent × List String) :=
  let moved := ag.node.setTranslation state.position
  if |E.norm state.rotation - 1| < 2 * E.epsilon then
    let turned := moved.setRotation (E.normalized state.rotation)
    if resetSensors then
      let r := resetSensorTransformations E ag.sensors turned []
      .ok ({ ag with node := r.1 }, r.2)
    else
      .ok ({ ag with node := turned }, [])
  else
    .error (.invalidRotation state.rotation)

end Agent

/-! ## Equality operators -/

/-- The operator `==` on `ActionSpec`. -/
def ActionSpec.eq (a b : ActionSpec) : Bool :=
  a.name == b.name && StdMap.eqWith Scalar.eq a.actuation b.actuation

/-- The operator `!=` on `ActionSpec`. -/
def ActionSpec.ne (a b : ActionSpec) : Bool := !(a.eq b)

/-- Modelled from the spec: `esp::equal` on two vectors of shared pointers
(esp/core is not part of the sources at hand); element-wise equality of the
pointees, under their own `==`. -/
def equalVector (E : Collaborators) (a b : List SensorSpec) : Bool :=
  a.length == b.length && (List.zipWith (fun s t => E.sensorSpecEq s t) a b).all id

/-- Modelled from the spec: `esp::equal` on two maps of shared pointers
(esp/core is not part of the sources at hand); equality as mappings, taken
entry by entry over both in key order with `==` on the pointees. -/
def equalMap (a b : ActionSpace) : Bool :=
  a.length == b.length &&
    (List.zipWith (fun p q => p.1 == q.1 && p.2.eq q.2) a b).all id

/-- The operator `==` on `AgentConfiguration`. -/
def AgentConfiguration.eq (E : Collaborators) (a b : AgentConfiguration) : Bool :=
  a.height.eq b.height && a.radius.eq b.radius && a.mass.eq b.mass &&
    a.linearAcceleration.eq b.linearAcceleration &&
    a.angularAcceleration.eq b.angularAcceleration &&
    a.linearFriction.eq b.linearFriction &&
    a.angularFriction.eq b.angularFriction &&
    a.coefficientOfRestitution.eq b.coefficientOfRestitution &&
    equalVector E a.sensorSpecifications b.sensorSpecifications &&
    equalMap a.actionSpace b.actionSpace && a.bodyType == b.bodyType

/-- The operator `!=` on `AgentConfiguration`. -/
def AgentConfiguration.ne (E : Collaborators) (a b : AgentConfiguration) : Bool :=
  !(a.eq E b)

/-- No actuation value of the spec is not-a-number. -/
def ActionSpec.NumbersOnly (s : ActionSpec) : Prop :=
  ∀ p ∈ s.actuation, p.2 ≠ Scalar.nan

/-- No scalar field of the configuration and no actuation value of its action
space is not-a-number. -/
def AgentConfiguration.NumbersOnly (a : AgentConfiguration) : Prop :=
  a.height ≠ .nan ∧ a.radius ≠ .nan ∧ a.mass ≠ .nan ∧ a.linearAcceleration ≠ .nan ∧
    a.angularAcceleration ≠ .nan ∧ a.linearFriction ≠ .nan ∧ a.angularFriction ≠ .nan ∧
    a.coefficientOfRestitution ≠ .nan ∧ ∀ p ∈ a.actionSpace, p.2.NumbersOnly

/-! ## A caller and sample inputs -/

/-- A caller issuing a sequence of `act` calls and stopping at the first fault. -/
def Agent.actAll (E : Collaborators) : Agent → List String → Except Fault Agent
  | ag, [] => .ok ag
  | ag, name :: rest =>
    match ag.act E name with
    | .error e => .error e
    | .ok r => actAll E r.2.1 rest

/-- Collaborators computing exactly, for evaluating the operations on concrete
inputs: the movement filter shifts the target by the distance against its
local z axis (and leaves it where it is when the distance is no number), a
sensor's transformation is its specified offset, and the norm is the rational
square root, exact on squares. -/
def exactCollaborators : Collaborators :=
  { move := fun n obj _ distance _ =>
      let t := (n.transformationOf obj).getD Transformation.identity
      match distance with
      | .num d => { t with translation := { t.translation with z := t.translation.z - d } }
      | _ => t
    transformationFromSpec := fun spec =>
      { translation := spec.position, rotation := ⟨0, 0, 0, 1⟩ }
    norm := fun q => Rat.sqrt q.dot
    epsilon := 1 / 100000
    normalized := fun q =>
      ⟨q.x / Rat.sqrt q.dot, q.y / Rat.sqrt q.dot, q.z / Rat.sqrt q.dot,
        q.w / Rat.sqrt q.dot⟩
    sensorSpecEq := fun s t => s == t }

/-- A node under the scene root, nothing attached yet. -/
def freshNode : SceneNode :=
  { parentAbsolute := Affine.identity, type := .EMPTY,
    transformation := Transformation.identity, children := [] }

/-- A node whose parent sits at (1, 0, 0). -/
def offsetNode : SceneNode :=
  { freshNode with parentAbsolute := { Affine.identity with translation := ⟨1, 0, 0⟩ } }

/-- A camera specification with the given identifier, mounted at height 3/2. -/
def cameraSpec (uuid : String) : SensorSpec :=
  { uuid := uuid, position := ⟨0, 3 / 2, 0⟩, orientation := ⟨0, 0, 0⟩ }

/-- A configuration with the default physical parameters. -/
def configurationWith (specs : List SensorSpec) (actionSpace : ActionSpace) :
    AgentConfiguration :=
  { height := .num (3 / 2), radius := .num (1 / 10), mass := .num 32,
    linearAcceleration := .num 20, angularAcceleration := .num 12,
    linearFriction := .num (1 / 2), angularFriction := .num 1,
    coefficientOfRestitution := .num 0, sensorSpecifications := specs,
    actionSpace := actionSpace, bodyType := "cylinder" }

/-- The action space of the end-to-end scenario. -/
def scenarioActions : ActionSpace :=
  [("lookUp", ⟨"lookUp", [("amount", .num 5)]⟩),
   ("moveForward", ⟨"moveForward", [("amount", .num (1 / 4))]⟩),
   ("turnLeft", ⟨"turnLeft", [("amount", .num 10)]⟩)]

/-- The agent of the end-to-end scenario: one sensor, three actions. -/
def scenarioAgent : Agent :=
  Agent.create exactCollaborators freshNode (configurationWith [cameraSpec "rgb"] scenarioActions)

/-- An agent with one sensor whose only action is stored under the key
"moveForward" while the spec itself is named "lookUp". -/
def bodyKeyAgent : Agent :=
  Agent.create exactCollaborators freshNode
    (configurationWith [cameraSpec "rgb"] [("moveForward", ⟨"lookUp", [("amount", .num 5)]⟩)])

/-- An agent with one sensor whose only action is stored under the key
"lookUp" while the spec itself is named "moveForward". -/
def sensorKeyAgent : Agent :=
  Agent.create exactCollaborators freshNode
    (configurationWith [cameraSpec "rgb"] [("lookUp", ⟨"moveForward", [("amount", .num (1 / 4))]⟩)])

/-- An agent without sensors whose action "lookUp" has an empty actuation map. -/
def bareAgent : Agent :=
  Agent.create exactCollaborators freshNode
    (configurationWith [] [("lookUp", ⟨"lookUp", []⟩)])

/-- An agent built from two sensor specifications that share the identifier
"rgb" and differ in their mounting height. -/
def twinAgent : Agent :=
  Agent.create exactCollaborators freshNode
    (configurationWith
      [cameraSpec "rgb", { uuid := "rgb", position := ⟨0, 1, 0⟩, orientation := ⟨0, 0, 0⟩ }]
      scenarioActions)

/-- An agent without sensors on a node whose parent sits at (1, 0, 0). -/
def offsetAgent : Agent :=
  Agent.create exactCollaborators offsetNode (configurationWith [] scenarioActions)

/-- The configuration of the end-to-end scenario. -/
def scenarioConfiguration : AgentConfiguration :=
  configurationWith [cameraSpec "rgb"] scenarioActions

/-- The configuration of the end-to-end scenario with another mass. -/
def heavyConfiguration : AgentConfiguration :=
  { scenarioConfiguration with mass := .num 40 }

/-- The configuration of the end-to-end scenario with a mass that is
not-a-number. -/
def nanConfiguration : AgentConfiguration :=
  { scenarioConfiguration with mass := .nan }

/-- What the constructor's loop has established once it has gone through the
specifications `done`, on a body node that had `base` children before. -/
structure Agent.Built (E : Collaborators) (base : Nat) (done : List SensorSpec) (ag : Agent) :
    Prop where
  children : ag.node.children.length = base + done.length
  wf : ag.sensors.WF
  keys : ∀ id, id ∈ ag.sensors.keys ↔ id ∈ done.map (fun spec => spec.uuid)
  entries : ∀ p ∈ ag.sensors,
    p.2.spec.uuid = p.1 ∧ ∃ i, done[i]? = some p.2.spec ∧ p.2.node = base + i
  transformed : ∀ p ∈ ag.sensors,
    ag.node.children[p.2.node]? = some (E.transformationFromSpec p.2.spec)
  distinct : (done.map (fun spec => spec.uuid)).Nodup → ∀ i spec, done[i]? = some spec →
    ag.sensors.find spec.uuid = some ⟨spec, base + i⟩

/-- The sensors of the suite sit on pairwise different, existing children of
the body node. -/
def Agent.Attached (ag : Agent) : Prop :=
  (ag.sensors.map fun p => p.2.node).Nodup ∧
    ∀ p ∈ ag.sensors, p.2.node < ag.node.children.length

/-! ## Lookup in a `std::map` -/

namespace StdMap

variable {V : Type}

theorem find_eq_none_iff (m : StdMap V) (k : String) : m.find k = none ↔ k ∉ m.keys := by
  induction m with
  | nil => simp [find, keys]
  | cons p rest ih =>
    obtain ⟨k1, v⟩ := p
    by_cases h : k1 = k
    · simp [find, keys, h]
    · have h2 : ¬ k = k1 := fun e => h e.symm
      simpa [find, keys, h, h2] using ih

theorem find_isSome_iff (m : StdMap V) (k : String) : (m.find k).isSome = true ↔ k ∈ m.keys := by
  rw [← not_iff_not, ← find_eq_none_iff]
  cases m.find k <;> simp

theorem mem_keys_of_find (m : StdMap V) (k : String) (v : V) (h : m.find k = some v) :
    k ∈ m.keys := by
  rw [← find_isSome_iff, h]; rfl

theorem mem_of_find (m : StdMap V) (k : String) (v : V) (h : m.find k = some v) :
    (k, v) ∈ m := by
  induction m with
  | nil => simp [find] at h
  | cons p rest ih =>
    obtain ⟨k1, v1⟩ := p
    by_cases hk : k1 = k
    · simp [find, hk] at h
      simp [hk, h]
    · simp [find, hk] at h
      exact List.mem_cons_of_mem _ (ih h)

theorem WF_cons (k : String) (v : V) (m : StdMap V) :
    WF ((k, v) :: m) ↔ (∀ j ∈ m.keys, k < j) ∧ WF m := by
  simp [WF, keys, List.pairwise_cons]

theorem find_eq_none_of_lt (m : StdMap V) (k : String) (h : ∀ j ∈ m.keys, k < j) :
    m.find k = none := by
  rw [find_eq_none_iff]
  intro hk
  exact lt_irrefl k (h k hk)

theorem keys_nodup (m : StdMap V) (hm : m.WF) : m.keys.Nodup :=
  List.Pairwise.imp (fun h => ne_of_lt h) hm

theorem find_of_mem_of_nodup (m : StdMap V) (hm : m.keys.Nodup) (k : String) (v : V)
    (h : (k, v) ∈ m) : m.find k = some v := by
  induction m with
  | nil => simp at h
  | cons p rest ih =>
    obtain ⟨k1, v1⟩ := p
    simp only [keys, List.map_cons, List.nodup_cons] at hm
    rcases List.mem_cons.mp h with heq | hrest
    · cases heq
      simp [find]
    · have hne : ¬ k1 = k := by
        intro e
        subst e
        exact hm.1 (List.mem_map.mpr ⟨(k1, v), hrest, rfl⟩)
      simpa [find, hne] using ih hm.2 hrest

theorem find_of_mem (m : StdMap V) (hm : m.WF) (k : String) (v : V) (h : (k, v) ∈ m) :
    m.find k = some v :=
  find_of_mem_of_nodup m (keys_nodup m hm) k v h

theorem find_perm (l1 l2 : StdMap V) (hp : l1.Perm l2) (hnd : l1.keys.Nodup) (k : String) :
    l1.find k = l2.find k := by
  have hnd2 : l2.keys.Nodup := (List.Perm.nodup_iff (hp.map Prod.fst)).mp hnd
  cases h1 : l1.find k with
  | none =>
    have hk : k ∉ l2.keys := by
      intro hk
      exact (find_eq_none_iff l1 k).mp h1 ((hp.map Prod.fst).mem_iff.mpr hk)
    exact ((find_eq_none_iff l2 k).mpr hk).symm
  | some v =>
    have hm := mem_of_find l1 k v h1
    exact (find_of_mem_of_nodup l2 hnd2 k v (hp.mem_iff.mp hm)).symm

theorem eq_of_mem_of_key_eq (m : StdMap V) (hm : m.WF) (p q : String × V) (hp : p ∈ m)
    (hq : q ∈ m) (hkey : p.1 = q.1) : p = q := by
  obtain ⟨k, v⟩ := p
  obtain ⟨k2, v2⟩ := q
  simp only at hkey
  subst hkey
  have h1 := find_of_mem m hm k v hp
  have h2 := find_of_mem m hm k v2 hq
  rw [h1] at h2
  cases h2
  rfl

theorem find_assign (k : String) (v : V) (m : StdMap V) (j : String) :
    (assign k v m).find j = if k = j then some v else m.find j := by
  induction m with
  | nil => simp [assign, find]
  | cons p rest ih =>
    obtain ⟨k1, v1⟩ := p
    by_cases h1 : k < k1
    · simp [assign, h1, find]
    · by_cases h2 : k = k1
      · subst h2
        by_cases h3 : k = j
        · simp [assign, find, h3]
        · simp [assign, find, h3]
      · by_cases h3 : k1 = j
        · subst h3
          simp [assign, h1, h2, find]
        · simp [assign, h1, h2, find, h3, ih]

theorem mem_keys_assign (k : String) (v : V) (m : StdMap V) (j : String) :
    j ∈ (assign k v m).keys ↔ j = k ∨ j ∈ m.keys := by
  rw [← find_isSome_iff, find_assign, ← find_isSome_iff]
  by_cases h : k = j
  · simp [h]
  · have h2 : ¬ j = k := fun e => h e.symm
    simp [h, h2]

theorem mem_assign (k : String) (v : V) (m : StdMap V) (p : String × V)
    (h : p ∈ assign k v m) : p = (k, v) ∨ p ∈ m := by
  induction m with
  | nil => simpa [assign] using h
  | cons q rest ih =>
    obtain ⟨k1, v1⟩ := q
    by_cases h1 : k < k1
    · simp only [assign, h1, if_true, List.mem_cons] at h
      rcases h with h | h | h
      · exact Or.inl h
      · exact Or.inr (by simp [h])
      · exact Or.inr (List.mem_cons_of_mem _ h)
    · by_cases h2 : k = k1
      · subst h2
        simp only [assign, h1, if_true, if_false, List.mem_cons] at h
        rcases h with h | h
        · exact Or.inl h
        · exact Or.inr (List.mem_cons_of_mem _ h)
      · simp only [assign, h1, h2, if_false, List.mem_cons] at h
        rcases h with h | h
        · exact Or.inr (by simp [h])
        · rcases ih h with h | h
          · exact Or.inl h
          · exact Or.inr (List.mem_cons_of_mem _ h)

theorem WF_assign (k : String) (v : V) (m : StdMap V) (hm : m.WF) : (assign k v m).WF := by
  induction m with
  | nil => simp [assign, WF, keys]
  | cons q rest ih =>
    obtain ⟨k1, v1⟩ := q
    have hm2 := (WF_cons k1 v1 rest).mp hm
    by_cases h1 : k < k1
    · simp only [assign, h1, if_true]
      rw [WF_cons]
      refine ⟨?_, hm⟩
      intro j hj
      simp only [keys, List.map_cons, List.mem_cons] at hj
      rcases hj with hj | hj
      · rw [hj]; exact h1
      · exact lt_trans h1 (hm2.1 j hj)
    · by_cases h2 : k = k1
      · subst h2
        simp only [assign, h1, if_true, if_false]
        rw [WF_cons]
        exact hm2
      · simp only [assign, h1, h2, if_false]
        rw [WF_cons]
        refine ⟨?_, ih hm2.2⟩
        intro j hj
        rcases (mem_keys_assign k v rest j).mp hj with hj | hj
        · rw [hj]
          exact lt_of_le_of_ne (not_lt.mp h1) (fun e => h2 e.symm)
        · exact hm2.1 j hj

theorem WF_ofList (l : List (String × V)) : (ofList l).WF := by
  have key : ∀ (l : List (String × V)) (m : StdMap V), m.WF →
      (l.foldl (fun m p => m.assign p.1 p.2) m).WF := by
    intro l
    induction l with
    | nil => intro m hm; exact hm
    | cons p rest ih => intro m hm; exact ih _ (WF_assign p.1 p.2 m hm)
  exact key l [] (by simp [WF, keys])

/-- Two well-formed maps with the same lookups have the same entries. -/
theorem ext_of_find (a b : StdMap V) (ha : a.WF) (hb : b.WF)
    (h : ∀ k, a.find k = b.find k) : a = b := by
  induction a generalizing b with
  | nil =>
    cases b with
    | nil => rfl
    | cons q rest =>
      obtain ⟨k2, v2⟩ := q
      have := h k2
      simp [find] at this
  | cons p rest ih =>
    obtain ⟨k, v⟩ := p
    cases b with
    | nil =>
      have := h k
      simp [find] at this
    | cons q rest2 =>
      obtain ⟨k2, v2⟩ := q
      have ha2 := (WF_cons k v rest).mp ha
      have hb2 := (WF_cons k2 v2 rest2).mp hb
      have hk : k = k2 := by
        by_contra hne
        have hne2 : ¬ k2 = k := fun e => hne e.symm
        have h1 := h k
        simp only [find, if_true, hne2, if_false] at h1
        have h2 := h k2
        simp only [find, if_true, hne, if_false] at h2
        have l1 : k2 < k := hb2.1 k (mem_keys_of_find rest2 k v h1.symm)
        have l2 : k < k2 := ha2.1 k2 (mem_keys_of_find rest k2 v2 h2)
        exact lt_asymm l1 l2
      subst hk
      have hv : v = v2 := by
        have h1 := h k
        simpa [find] using h1
      subst hv
      have htail : ∀ j, find rest j = find rest2 j := by
        intro j
        by_cases hj : k = j
        · subst hj
          rw [find_eq_none_of_lt rest k ha2.1, find_eq_none_of_lt rest2 k hb2.1]
        · have := h j
          simpa [find, hj] using this
      rw [ih rest2 ha2.2 hb2.2 htail]

theorem find_foldl_assign (l : List (String × V)) (hnd : (l.map Prod.fst).Nodup)
    (m : StdMap V) (k : String) :
    (l.foldl (fun m p => m.assign p.1 p.2) m).find k =
      match find l k with
      | some v => some v
      | none => m.find k := by
  induction l generalizing m with
  | nil => simp [find]
  | cons p rest ih =>
    obtain ⟨k1, v1⟩ := p
    simp only [List.map_cons, List.nodup_cons] at hnd
    simp only [List.foldl_cons]
    rw [ih hnd.2, find_assign]
    by_cases hk : k1 = k
    · subst hk
      have hnone : find rest k1 = none := (find_eq_none_iff rest k1).mpr hnd.1
      simp [find, hnone]
    · simp [find, hk]

/-- The map built from a sequence of entries with pairwise different keys does
not depend on the order of the sequence. -/
theorem ofList_perm (l1 l2 : List (String × V)) (hp : l1.Perm l2)
    (hnd : (l1.map Prod.fst).Nodup) : ofList l1 = ofList l2 := by
  have hnd2 : (l2.map Prod.fst).Nodup := (List.Perm.nodup_iff (hp.map Prod.fst)).mp hnd
  apply ext_of_find _ _ (WF_ofList l1) (WF_ofList l2)
  intro k
  simp only [ofList]
  rw [find_foldl_assign l1 hnd, find_foldl_assign l2 hnd2, find_perm l1 l2 hp hnd k]

end StdMap

/-! ## Construction of the sensor suite -/

namespace Agent

theorem set_append_singleton {α : Type} (l : List α) (a b : α) :
    (l ++ [a]).set l.length b = l ++ [b] := by
  induction l with
  | nil => rfl
  | cons x rest ih => simp [List.set, ih]

theorem addSensor_sensors (E : Collaborators) (ag : Agent) (spec : SensorSpec) :
    (addSensor E ag spec).sensors =
      StdMap.assign spec.uuid ⟨spec, ag.node.children.length⟩ ag.sensors := rfl

theorem addSensor_children (E : Collaborators) (ag : Agent) (spec : SensorSpec) :
    (addSensor E ag spec).node.children =
      ag.node.children ++ [E.transformationFromSpec spec] := by
  simp [addSensor, PinholeCamera.create, Sensor.setTransformationFromSpec,
    SceneNode.setTransformation, SceneNode.createChild, set_append_singleton]

theorem addSensor_configuration (E : Collaborators) (ag : Agent) (spec : SensorSpec) :
    (addSensor E ag spec).configuration = ag.configuration := rfl

theorem addSensor_type (E : Collaborators) (ag : Agent) (spec : SensorSpec) :
    (addSensor E ag spec).node.type = ag.node.type := rfl

theorem foldl_addSensor_configuration (E : Collaborators) (specs : List SensorSpec)
    (ag : Agent) :
    (specs.foldl (addSensor E) ag).configuration = ag.configuration ∧
      (specs.foldl (addSensor E) ag).node.type = ag.node.type := by
  induction specs generalizing ag with
  | nil => exact ⟨rfl, rfl⟩
  | cons spec rest ih =>
    simp only [List.foldl_cons]
    rw [(ih _).1, (ih _).2]
    exact ⟨rfl, rfl⟩

theorem Built.step (E : Collaborators) (base : Nat) (done : List SensorSpec) (ag : Agent)
    (spec : SensorSpec) (h : Built E base done ag) :
    Built E base (done ++ [spec]) (addSensor E ag spec) := by
  have hlen : ag.node.children.length = base + done.length := h.children
  refine ⟨?_, ?_, ?_, ?_, ?_, ?_⟩
  · rw [addSensor_children]
    simp [hlen, Nat.add_assoc]
  · rw [addSensor_sensors]
    exact StdMap.WF_assign _ _ _ h.wf
  · intro id
    rw [addSensor_sensors, StdMap.mem_keys_assign, h.keys id]
    simp only [List.map_append, List.map_cons, List.map_nil, List.mem_append,
      List.mem_singleton]
    exact or_comm
  · intro p hp
    rw [addSensor_sensors] at hp
    rcases StdMap.mem_assign _ _ _ _ hp with hnew | hold
    · subst hnew
      refine ⟨rfl, done.length, ?_, ?_⟩
      · simp
      · simpa using hlen
    · obtain ⟨hk, i, hi, hnode⟩ := h.entries p hold
      refine ⟨hk, i, ?_, hnode⟩
      have hilt : i < done.length := by
        by_contra hge
        rw [List.getElem?_eq_none (not_lt.mp hge)] at hi
        cases hi
      rw [List.getElem?_append_left hilt]
      exact hi
  · intro p hp
    rw [addSensor_sensors] at hp
    rw [addSensor_children]
    rcases StdMap.mem_assign _ _ _ _ hp with hnew | hold
    · subst hnew
      simp
    · obtain ⟨_, i, hi, hnode⟩ := h.entries p hold
      have hilt : i < done.length := by
        by_contra hge
        rw [List.getElem?_eq_none (not_lt.mp hge)] at hi
        cases hi
      have hlt : p.2.node < ag.node.children.length := by omega
      rw [List.getElem?_append_left hlt]
      exact h.transformed p hold
  · intro hnd i s hi
    rw [addSensor_sensors, StdMap.find_assign]
    simp only [List.map_append, List.map_cons, List.map_nil] at hnd
    have hnd2 := List.nodup_append.mp hnd
    by_cases hilt : i < done.length
    · rw [List.getElem?_append_left hilt] at hi
      have hs : s ∈ done := List.getElem?_mem hi
      have hne : ¬ spec.uuid = s.uuid := by
        intro e
        have h1 : s.uuid ∈ done.map (fun spec => spec.uuid) := List.mem_map.mpr ⟨s, hs, rfl⟩
        exact hnd2.2.2 h1 (by simp [e])
      simp only [hne, if_false]
      exact h.distinct hnd2.1 i s hi
    · have hige : done.length ≤ i := not_lt.mp hilt
      rw [List.getElem?_append_right hige] at hi
      have hi0 : i - done.length = 0 := by
        by_contra hpos
        rw [List.getElem?_eq_none (by simp; omega)] at hi
        cases hi
      rw [hi0] at hi
      simp only [List.getElem?_cons_zero, Option.some.injEq] at hi
      subst hi
      have : i = done.length := by omega
      subst this
      simp [hlen]

theorem Built.foldl (E : Collaborators) (base : Nat) (rest done : List SensorSpec) (ag : Agent)
    (h : Built E base done ag) :
    Built E base (done ++ rest) (rest.foldl (addSensor E) ag) := by
  induction rest generalizing done ag with
  | nil => simpa using h
  | cons spec rest ih =>
    have := ih (done ++ [spec]) (addSensor E ag spec) (Built.step E base done ag spec h)
    simpa using this

theorem create_built (E : Collaborators) (agentNode : SceneNode) (cfg : AgentConfiguration) :
    Built E agentNode.children.length cfg.sensorSpecifications (create E agentNode cfg) := by
  have h0 : Built E agentNode.children.length []
      { configuration := cfg, sensors := [], node := agentNode.setType .AGENT } := by
    refine ⟨rfl, by simp [StdMap.WF, StdMap.keys], by simp [StdMap.keys], ?_, ?_, ?_⟩
    · intro p hp; simp at hp
    · intro p hp; simp at hp
    · intro _ i s hi; simp at hi
  have := Built.foldl E agentNode.children.length cfg.sensorSpecifications [] _ h0
  simpa [create] using this

theorem Built.attached (E : Collaborators) (base : Nat) (done : List SensorSpec) (ag : Agent)
    (h : Built E base done ag) : ag.Attached := by
  constructor
  · refine List.Nodup.map_on ?_ (List.Nodup.of_map _ (StdMap.keys_nodup _ h.wf))
    intro p hp q hq hpq
    obtain ⟨hkp, i, hi, hni⟩ := h.entries p hp
    obtain ⟨hkq, j, hj, hnj⟩ := h.entries q hq
    have hij : i = j := by omega
    subst hij
    rw [hi] at hj
    have hspec : p.2.spec = q.2.spec := by simpa using hj
    apply StdMap.eq_of_mem_of_key_eq ag.sensors h.wf p q hp hq
    rw [← hkp, ← hkq, hspec]
  · intro p hp
    obtain ⟨_, i, hi, hni⟩ := h.entries p hp
    have hilt : i < done.length := by
      by_contra hge
      rw [List.getElem?_eq_none (not_lt.mp hge)] at hi
      cases hi
    rw [h.children]
    omega

/-- C9, as the code has it. For every configuration the constructor tags the
body node as agent, keeps the configuration, and adds one sensing device per
specification in configuration order, each on its own new child node of the
body node: the node gains exactly as many children as there are
specifications, every sensor of the suite is keyed by its spec's identifier,
carries a specification of the configuration and sits on the child created
for that specification, already transformed from it. The suite is a mapping
with unique keys: its identifiers are exactly those of the specifications and
it holds as many sensors as there are different identifiers; when the
identifiers are pairwise different it holds exactly as many sensors as there
are specifications, the i-th specification's device on the i-th new child. -/
theorem create_sensor_suite (E : Collaborators) (agentNode : SceneNode)
    (cfg : AgentConfiguration) :
    (create E agentNode cfg).configuration = cfg ∧
      (create E agentNode cfg).node.type = .AGENT ∧
      (create E agentNode cfg).node.children.length =
        agentNode.children.length + cfg.sensorSpecifications.length ∧
      (create E agentNode cfg).sensors.WF ∧
      (∀ id, id ∈ (create E agentNode cfg).sensors.keys ↔
        id ∈ cfg.sensorSpecifications.map (fun spec => spec.uuid)) ∧
      (create E agentNode cfg).sensors.length =
        (cfg.sensorSpecifications.map (fun spec => spec.uuid)).dedup.length ∧
      (∀ p ∈ (create E agentNode cfg).sensors,
        p.2.spec.uuid = p.1 ∧
        (∃ i, cfg.sensorSpecifications[i]? = some p.2.spec ∧
          p.2.node = agentNode.children.length + i) ∧
        (create E agentNode cfg).node.children[p.2.node]? =
          some (E.transformationFromSpec p.2.spec)) ∧
      ((cfg.sensorSpecifications.map (fun spec => spec.uuid)).Nodup →
        (create E agentNode cfg).sensors.length = cfg.sensorSpecifications.length ∧
        ∀ i spec, cfg.sensorSpecifications[i]? = some spec →
          (create E agentNode cfg).sensors.find spec.uuid =
            some ⟨spec, agentNode.children.length + i⟩) := by
  have hb := create_built E agentNode cfg
  have hcount : (create E agentNode cfg).sensors.length =
      (cfg.sensorSpecifications.map (fun spec => spec.uuid)).dedup.length := by
    have h1 : (create E agentNode cfg).sensors.length =
        (create E agentNode cfg).sensors.keys.length := by simp [StdMap.keys]
    rw [h1, ← List.toFinset_card_of_nodup (StdMap.keys_nodup _ hb.wf), ← List.card_toFinset]
    congr 1
    ext id
    simp only [List.mem_toFinset]
    exact hb.keys id
  refine ⟨(foldl_addSensor_configuration E _ _).1, (foldl_addSensor_configuration E _ _).2,
    hb.children, hb.wf, hb.keys, hcount, ?_, ?_⟩
  · intro p hp
    exact ⟨(hb.entries p hp).1, (hb.entries p hp).2, hb.transformed p hp⟩
  · intro hnd
    refine ⟨?_, hb.distinct hnd⟩
    rw [hcount, List.Nodup.dedup hnd, List.length_map]

/-- Counterexample to C9 as stated: two specifications sharing the identifier
"rgb" give two new child nodes but a suite of one sensor, the device of the
second specification. -/
theorem create_shared_identifier_counterexample :
    twinAgent.configuration.sensorSpecifications.length = 2 ∧
      twinAgent.node.children.length = 2 ∧
      twinAgent.sensors.length = 1 ∧
      twinAgent.sensors =
        [("rgb", ⟨{ uuid := "rgb", position := ⟨0, 1, 0⟩, orientation := ⟨0, 0, 0⟩ }, 1⟩)] := by
  refine ⟨rfl, rfl, ?_, ?_⟩ <;>
    simp [twinAgent, create, addSensor, PinholeCamera.create, SensorSuite.add,
      StdMap.assign, configurationWith, cameraSpec, SceneNode.createChild, freshNode,
      Sensor.setTransformationFromSpec, SceneNode.setTransformation, SceneNode.setType]

end Agent

/-! ## Dispatch of an action -/

namespace Agent

theorem hasAction_fst (ag : Agent) (name : String) :
    (ag.hasAction name).1 = (ag.configuration.actionSpace.find name).isSome := by
  simp only [hasAction]
  cases ag.configuration.actionSpace.find name <;> rfl

theorem hasAction_snd (ag : Agent) (name : String) : (ag.hasAction name).2 = ag := rfl

/-- The calls that the sensor loop of `act` makes for a resolved spec and amount. -/
theorem actSensors_ok (E : Collaborators) (spec : ActionSpec) (amount : Scalar)
    (hamt : spec.actuation.find "amount" = some amount)
    (l : List (String × Sensor)) (n : SceneNode) (calls : List ControlCall) :
    actSensors E spec l n calls =
      .ok ((l.map fun p => (⟨.child p.2.node, spec.name, amount, false⟩ : ControlCall)).foldl
            E.action n,
          calls ++ l.map fun p => ⟨.child p.2.node, spec.name, amount, false⟩) := by
  induction l generalizing n calls with
  | nil => simp [actSensors]
  | cons p rest ih =>
    simp only [actSensors, StdMap.at, hamt, List.map_cons, List.foldl_cons]
    rw [ih]
    simp

/-- C1. For every agent and every action name that is not a key of the
configured action space, `act` returns `false`, makes no call to the movement
filter and hands back the very same state: the body node's transformation and
every sensor node's transformation are unchanged. -/
theorem act_unknown_action (E : Collaborators) (ag : Agent) (name : String)
    (hkey : name ∉ ag.configuration.actionSpace.keys) :
    ag.act E name = .ok (false, ag, []) := by
  have hnone := (StdMap.find_eq_none_iff _ _).mpr hkey
  have h : (ag.hasAction name).1 = false := by rw [hasAction_fst, hnone]; rfl
  simp only [act, h, hasAction_snd]
  rfl

/-- Witness for C1: "jump" is not an action of the scenario agent. -/
theorem act_unknown_action_witness :
    "jump" ∉ scenarioAgent.configuration.actionSpace.keys ∧
      scenarioAgent.act exactCollaborators "jump" = .ok (false, scenarioAgent, []) :=
  ⟨by decide, act_unknown_action exactCollaborators scenarioAgent "jump" (by decide)⟩

/-- C2, as the code has it. For every agent and every name that is a key of the
action space, whose resolved spec is named by a member of the canonical
body-action set and has an "amount" entry, `act` returns `true` and calls the
movement filter exactly once: on the body node, with the resolved spec's name
and amount and with the filter applied; the configuration and the sensor suite
are unchanged. -/
theorem act_body_action (E : Collaborators) (ag : Agent) (name : String) (spec : ActionSpec)
    (amount : Scalar)
    (hkey : ag.configuration.actionSpace.find name = some spec)
    (hbody : spec.name ∈ BodyActions)
    (hamt : spec.actuation.find "amount" = some amount) :
    ag.act E name =
      .ok (true,
        { ag with node := E.action ag.node ⟨.self, spec.name, amount, true⟩ },
        [⟨.self, spec.name, amount, true⟩]) := by
  have h : (ag.hasAction name).1 = true := by rw [hasAction_fst, hkey]; rfl
  have hc : BodyActions.contains spec.name = true := by simpa using hbody
  simp only [act, h, hasAction_snd, StdMap.at, hkey, hc, hamt]
  rfl

/-- Witness for C2: "moveForward" in the end-to-end scenario. -/
theorem act_body_action_witness :
    scenarioAgent.act exactCollaborators "moveForward" =
      .ok (true,
        { scenarioAgent with
          node := exactCollaborators.action scenarioAgent.node
            ⟨.self, "moveForward", .num (1 / 4), true⟩ },
        [⟨.self, "moveForward", .num (1 / 4), true⟩]) :=
  act_body_action exactCollaborators scenarioAgent "moveForward"
    ⟨"moveForward", [("amount", .num (1 / 4))]⟩ (.num (1 / 4)) rfl (by decide) rfl

/-- Counterexample to C2 as stated: the key "moveForward" is in the canonical
body-action set and in the action space, its spec has an amount, and yet `act`
makes its one call on the sensor's node, without the filter. -/
theorem act_body_key_counterexample :
    "moveForward" ∈ BodyActions ∧
      "moveForward" ∈ bodyKeyAgent.configuration.actionSpace.keys ∧
      bodyKeyAgent.configuration.actionSpace.find "moveForward" =
        some ⟨"lookUp", [("amount", .num 5)]⟩ ∧
      ∃ ag, bodyKeyAgent.act exactCollaborators "moveForward" =
        .ok (true, ag, [⟨.child 0, "lookUp", .num 5, false⟩]) :=
  ⟨by decide, by decide, by decide, _, rfl⟩

/-- C3, as the code has it. For every agent with a suite of k sensors and every
name that is a key of the action space, whose resolved spec is named outside
the canonical body-action set and has an "amount" entry, `act` returns `true`
and calls the movement filter exactly k times: once on each sensor's own node,
in suite order, each with the resolved spec's name and amount and without the
filter, and never on the body node, whose transformation is unchanged, as are
the configuration and the sensor suite. -/
theorem act_sensor_action (E : Collaborators) (ag : Agent) (name : String) (spec : ActionSpec)
    (amount : Scalar)
    (hkey : ag.configuration.actionSpace.find name = some spec)
    (hsensor : spec.name ∉ BodyActions)
    (hamt : spec.actuation.find "amount" = some amount) :
    ∃ calls : List ControlCall,
      calls = ag.sensors.map (fun p => ⟨.child p.2.node, spec.name, amount, false⟩) ∧
      calls.length = ag.sensors.length ∧
      (∀ c ∈ calls, c.object ≠ .self) ∧
      ag.act E name = .ok (true, { ag with node := calls.foldl E.action ag.node }, calls) ∧
      (calls.foldl E.action ag.node).transformation = ag.node.transformation := by
  have h : (ag.hasAction name).1 = true := by rw [hasAction_fst, hkey]; rfl
  have hc : BodyActions.contains spec.name = false := by simpa using hsensor
  refine ⟨_, rfl, by simp, ?_, ?_, ?_⟩
  · intro c hcm
    simp only [List.mem_map] at hcm
    obtain ⟨p, _, rfl⟩ := hcm
    simp
  · simp only [act, h, hasAction_snd, StdMap.at, hkey, hc, actSensors_ok E spec amount hamt]
    simp
  · generalize ag.node = n
    induction ag.sensors generalizing n with
    | nil => rfl
    | cons p rest ih =>
      simp only [List.map_cons, List.foldl_cons]
      rw [ih]
      rfl

/-- Witness for C3: "lookUp" in the end-to-end scenario. -/
theorem act_sensor_action_witness :
    ∃ calls : List ControlCall,
      calls = scenarioAgent.sensors.map
        (fun p => ⟨.child p.2.node, "lookUp", .num 5, false⟩) ∧
      calls.length = scenarioAgent.sensors.length ∧
      (∀ c ∈ calls, c.object ≠ .self) ∧
      scenarioAgent.act exactCollaborators "lookUp" =
        .ok (true,
          { scenarioAgent with node := calls.foldl exactCollaborators.action scenarioAgent.node },
          calls) ∧
      (calls.foldl exactCollaborators.action scenarioAgent.node).transformation =
        scenarioAgent.node.transformation :=
  act_sensor_action exactCollaborators scenarioAgent "lookUp"
    ⟨"lookUp", [("amount", .num 5)]⟩ (.num 5)
    (by decide) (by decide) (by decide)

/-- Counterexample to C3 as stated: the key "lookUp" is outside the canonical
body-action set and in the action space, its spec has an amount, the suite has
one sensor, and yet `act` makes its one call on the body node, with the
filter. -/
theorem act_sensor_key_counterexample :
    "lookUp" ∉ BodyActions ∧
      "lookUp" ∈ sensorKeyAgent.configuration.actionSpace.keys ∧
      sensorKeyAgent.configuration.actionSpace.find "lookUp" =
        some ⟨"moveForward", [("amount", .num (1 / 4))]⟩ ∧
      sensorKeyAgent.sensors.length = 1 ∧
      ∃ ag, sensorKeyAgent.act exactCollaborators "lookUp" =
        .ok (true, ag, [⟨.self, "moveForward", .num (1 / 4), true⟩]) :=
  ⟨by decide, by decide, rfl, rfl, _, rfl⟩

/-- C4, as the code has it. For every agent and every name that is a key of the
action space whose resolved spec has no "amount" entry: when the spec is named
by a member of the canonical body-action set, or the suite holds at least one
sensor, `act` ends in the lookup fault and returns nothing; when the spec is
named outside that set and the suite is empty, the amount is never looked up
and `act` returns `true` without any call. -/
theorem act_missing_amount (E : Collaborators) (ag : Agent) (name : String) (spec : ActionSpec)
    (hkey : ag.configuration.actionSpace.find name = some spec)
    (hamt : spec.actuation.find "amount" = none) :
    ((spec.name ∈ BodyActions ∨ ag.sensors ≠ []) →
        ag.act E name = .error (.outOfRange "amount")) ∧
      ((spec.name ∉ BodyActions ∧ ag.sensors = []) →
        ag.act E name = .ok (true, ag, [])) := by
  have h : (ag.hasAction name).1 = true := by rw [hasAction_fst, hkey]; rfl
  constructor
  · intro hcase
    by_cases hb : spec.name ∈ BodyActions
    · have hc : BodyActions.contains spec.name = true := by simpa using hb
      simp only [act, h, hasAction_snd, StdMap.at, hkey, hc, hamt]
      rfl
    · have hc : BodyActions.contains spec.name = false := by simpa using hb
      have hne : ag.sensors ≠ [] := hcase.resolve_left hb
      obtain ⟨p, rest, hs⟩ := List.exists_cons_of_ne_nil hne
      simp only [act, h, hasAction_snd, StdMap.at, hkey, hc, hs, actSensors, hamt]
      rfl
  · rintro ⟨hb, hs⟩
    have hc : BodyActions.contains spec.name = false := by simpa using hb
    obtain ⟨cfg, sensors, node⟩ := ag
    simp only at hs hkey
    subst hs
    simp [act, h, hasAction_snd, StdMap.at, hkey, hb, actSensors]

/-- Witness for C4: an agent with one sensor and an amount-less "lookUp". -/
theorem act_missing_amount_witness :
    ((("lookUp" : String) ∈ BodyActions ∨
          (Agent.create exactCollaborators freshNode
            (configurationWith [cameraSpec "rgb"] [("lookUp", ⟨"lookUp", []⟩)])).sensors ≠ []) →
        (Agent.create exactCollaborators freshNode
            (configurationWith [cameraSpec "rgb"] [("lookUp", ⟨"lookUp", []⟩)])).act
          exactCollaborators "lookUp" = .error (.outOfRange "amount")) ∧
      (((("lookUp" : String) ∉ BodyActions) ∧
          (Agent.create exactCollaborators freshNode
            (configurationWith [cameraSpec "rgb"] [("lookUp", ⟨"lookUp", []⟩)])).sensors = []) →
        (Agent.create exactCollaborators freshNode
            (configurationWith [cameraSpec "rgb"] [("lookUp", ⟨"lookUp", []⟩)])).act
          exactCollaborators "lookUp" =
          .ok (true,
            Agent.create exactCollaborators freshNode
              (configurationWith [cameraSpec "rgb"] [("lookUp", ⟨"lookUp", []⟩)]), [])) :=
  act_missing_amount exactCollaborators
    (Agent.create exactCollaborators freshNode
      (configurationWith [cameraSpec "rgb"] [("lookUp", ⟨"lookUp", []⟩)]))
    "lookUp" ⟨"lookUp", []⟩ (by decide) (by decide)

/-- Counterexample to C4 as stated: "lookUp" is a key of the action space, its
spec has no "amount" entry, and `act` returns `true` instead of failing,
because the agent has no sensor on which the amount would be looked up. -/
theorem act_missing_amount_counterexample :
    "lookUp" ∈ bareAgent.configuration.actionSpace.keys ∧
      bareAgent.configuration.actionSpace.find "lookUp" = some ⟨"lookUp", []⟩ ∧
      (⟨"lookUp", []⟩ : ActionSpec).actuation.find "amount" = none ∧
      bareAgent.act exactCollaborators "lookUp" = .ok (true, bareAgent, []) :=
  ⟨by decide, by decide, by decide, rfl⟩

/-- C10. For every agent and every string, `hasAction` answers `true` exactly
when the string is a key of the configuration's action space, and hands back
the very same state (configuration, body transformation and sensor
transformations unchanged); and `act` returns `true` only for a name on which
`hasAction` answers `true`. -/
theorem hasAction_iff_key (E : Collaborators) (ag : Agent) (name : String) :
    ((ag.hasAction name).1 = true ↔ name ∈ ag.configuration.actionSpace.keys) ∧
      (ag.hasAction name).2 = ag ∧
      (∀ ag1 calls, ag.act E name = .ok (true, ag1, calls) → (ag.hasAction name).1 = true) := by
  refine ⟨?_, rfl, ?_⟩
  · rw [hasAction_fst, StdMap.find_isSome_iff]
  · intro ag1 calls hact
    by_contra hno
    have hfalse : (ag.hasAction name).1 = false := by simpa using hno
    simp only [act, hfalse, hasAction_snd] at hact
    cases hact

/-! ## Frame of `act` -/

theorem action_children_length (E : Collaborators) (n : SceneNode) (c : ControlCall) :
    (E.action n c).children.length = n.children.length := by
  obtain ⟨obj, actName, distance, applyFilter⟩ := c
  cases obj <;> simp [Collaborators.action, SceneNode.setTransformation]

theorem actSensors_children_length (E : Collaborators) (spec : ActionSpec)
    (l : List (String × Sensor)) (n : SceneNode) (calls : List ControlCall)
    (r : SceneNode × List ControlCall) (h : actSensors E spec l n calls = .ok r) :
    r.1.children.length = n.children.length := by
  induction l generalizing n calls with
  | nil =>
    simp only [actSensors, Except.ok.injEq] at h
    rw [← h]
  | cons p rest ih =>
    simp only [actSensors] at h
    split at h
    · cases h
    · rw [ih _ _ h, action_children_length]

/-- A returning `act` keeps the configuration, the sensor suite and the number
of children of the body node. -/
theorem act_frame (E : Collaborators) (ag : Agent) (name : String)
    (r : Bool × Agent × List ControlCall) (h : ag.act E name = .ok r) :
    r.2.1.configuration = ag.configuration ∧ r.2.1.sensors = ag.sensors ∧
      r.2.1.node.children.length = ag.node.children.length := by
  simp only [act, hasAction_snd] at h
  split at h
  · split at h
    · cases h
    · split at h
      · split at h
        · cases h
        · simp only [Except.ok.injEq] at h
          rw [← h]
          exact ⟨rfl, rfl, action_children_length E _ _⟩
      · split at h
        · cases h
        · rename_i r2 hr2
          simp only [Except.ok.injEq] at h
          rw [← h]
          exact ⟨rfl, rfl, actSensors_children_length E _ _ _ _ _ hr2⟩
  · simp only [Except.ok.injEq] at h
    rw [← h]
    exact ⟨rfl, rfl, rfl⟩

theorem actAll_frame (E : Collaborators) (names : List String) (ag ag1 : Agent)
    (h : ag.actAll E names = .ok ag1) :
    ag1.configuration = ag.configuration ∧ ag1.sensors = ag.sensors ∧
      ag1.node.children.length = ag.node.children.length := by
  induction names generalizing ag with
  | nil =>
    simp only [actAll, Except.ok.injEq] at h
    rw [← h]
    exact ⟨rfl, rfl, rfl⟩
  | cons name rest ih =>
    simp only [actAll] at h
    split at h
    · cases h
    · rename_i r hr
      obtain ⟨h1, h2, h3⟩ := ih _ h
      obtain ⟨g1, g2, g3⟩ := act_frame E ag name r hr
      exact ⟨h1.trans g1, h2.trans g2, h3.trans g3⟩

/-! ## Pose transfer -/

theorem resetSensorTransformations_eq (E : Collaborators) (l : List (String × Sensor))
    (n : SceneNode) (done : List String) :
    resetSensorTransformations E l n done =
      (l.foldl (fun n p => p.2.setTransformationFromSpec E n) n, done ++ l.map Prod.fst) := by
  induction l generalizing n done with
  | nil => simp [resetSensorTransformations]
  | cons p rest ih => simp [resetSensorTransformations, ih]

theorem reset_frame (E : Collaborators) (l : List (String × Sensor)) (n : SceneNode) :
    (l.foldl (fun n p => p.2.setTransformationFromSpec E n) n).transformation =
        n.transformation ∧
      (l.foldl (fun n p => p.2.setTransformationFromSpec E n) n).children.length =
        n.children.length := by
  induction l generalizing n with
  | nil => exact ⟨rfl, rfl⟩
  | cons p rest ih =>
    simp only [List.foldl_cons]
    rw [(ih _).1, (ih _).2]
    simp [Sensor.setTransformationFromSpec, SceneNode.setTransformation]

theorem reset_other (E : Collaborators) (l : List (String × Sensor)) (n : SceneNode) (i : Nat)
    (hi : i ∉ l.map fun p => p.2.node) :
    (l.foldl (fun n p => p.2.setTransformationFromSpec E n) n).children[i]? =
      n.children[i]? := by
  induction l generalizing n with
  | nil => rfl
  | cons p rest ih =>
    simp only [List.map_cons, List.mem_cons, not_or] at hi
    simp only [List.foldl_cons]
    rw [ih _ hi.2]
    simp only [Sensor.setTransformationFromSpec, SceneNode.setTransformation]
    exact List.getElem?_set_ne (fun e => hi.1 e.symm)

theorem reset_each (E : Collaborators) (l : List (String × Sensor)) (n : SceneNode)
    (hnd : (l.map fun p => p.2.node).Nodup) (hlt : ∀ p ∈ l, p.2.node < n.children.length) :
    ∀ p ∈ l, (l.foldl (fun n p => p.2.setTransformationFromSpec E n) n).children[p.2.node]? =
      some (E.transformationFromSpec p.2.spec) := by
  induction l generalizing n with
  | nil => intro p hp; simp at hp
  | cons q rest ih =>
    intro p hp
    simp only [List.map_cons, List.nodup_cons] at hnd
    simp only [List.foldl_cons]
    have hlen : (q.2.setTransformationFromSpec E n).children.length = n.children.length := by
      simp [Sensor.setTransformationFromSpec, SceneNode.setTransformation]
    rcases List.mem_cons.mp hp with hpq | hprest
    · subst hpq
      rw [reset_other E rest _ _ hnd.1]
      simp only [Sensor.setTransformationFromSpec, SceneNode.setTransformation]
      rw [List.getElem?_set_self (hlt p (List.mem_cons_self _ _))]
    · apply ih _ hnd.2 _ p hprest
      intro r hr
      rw [hlen]
      exact hlt r (List.mem_cons_of_mem _ hr)

/-- C7. For every agent built by the constructor, every sequence of `act`
calls that returned, and every state whose rotation passes the unit-norm
check: `setState` with `resetSensors = true` calls `setTransformationFromSpec`
exactly once on each sensor of the suite (the identifiers reset are the keys
of the suite, which are pairwise different), after which every sensor's node
carries the transformation derived from that sensor's specification, a
specification of the configuration, whatever the earlier calls did to it; with
`resetSensors = false` no call is made and no child of the body node changes.
In both cases the body node takes the position and the normalized rotation of
the state, and the suite is unchanged. -/
theorem setState_sensor_reset (E : Collaborators) (agentNode : SceneNode)
    (cfg : AgentConfiguration) (names : List String) (ag : Agent) (state : AgentState)
    (hrun : (create E agentNode cfg).actAll E names = .ok ag)
    (hrot : |E.norm state.rotation - 1| < 2 * E.epsilon) :
    (∃ ag1, ag.setState E state true = .ok (ag1, ag.sensors.keys) ∧
        ag.sensors.keys.Nodup ∧ ag1.sensors = ag.sensors ∧
        ag1.node.transformation = ⟨state.position, E.normalized state.rotation⟩ ∧
        ∀ p ∈ ag1.sensors, p.2.spec ∈ cfg.sensorSpecifications ∧
          ag1.node.children[p.2.node]? = some (E.transformationFromSpec p.2.spec)) ∧
      (∃ ag0, ag.setState E state false = .ok (ag0, []) ∧ ag0.sensors = ag.sensors ∧
        ag0.node.transformation = ⟨state.position, E.normalized state.rotation⟩ ∧
        ag0.node.children = ag.node.children) := by
  have hb := create_built E agentNode cfg
  obtain ⟨_, hs, hlen⟩ := actAll_frame E names _ ag hrun
  have hatt := Built.attached E _ _ _ hb
  constructor
  · refine ⟨{ ag with
        node := (resetSensorTransformations E ag.sensors
          ((ag.node.setTranslation state.position).setRotation
            (E.normalized state.rotation)) []).1 }, ?_, ?_, rfl, ?_, ?_⟩
    · simp only [setState, hrot, if_true, resetSensorTransformations_eq]
      rfl
    · rw [hs]
      exact StdMap.keys_nodup _ hb.wf
    · simp only [resetSensorTransformations_eq]
      rw [(reset_frame E _ _).1]
      rfl
    · intro p hp
      simp only [resetSensorTransformations_eq]
      constructor
      · have hp2 : p ∈ (create E agentNode cfg).sensors := by rw [← hs]; exact hp
        obtain ⟨_, i, hi, _⟩ := hb.entries p hp2
        exact List.getElem?_mem hi
      · apply reset_each E ag.sensors _ _ _ p hp
        · rw [hs]; exact hatt.1
        · intro q hq
          have hq2 : q ∈ (create E agentNode cfg).sensors := by rw [← hs]; exact hq
          have := hatt.2 q hq2
          simpa [SceneNode.setRotation, SceneNode.setTranslation, hlen] using this
  · refine ⟨{ ag with
        node := (ag.node.setTranslation state.position).setRotation
          (E.normalized state.rotation) }, ?_, rfl, rfl, rfl⟩
    simp only [setState, hrot, if_true]
    rfl

/-- Witness for C7: the scenario agent after "lookUp" has displaced its sensor,
reset by a pose with the identity rotation. -/
theorem setState_sensor_reset_witness :
    ∃ ag, scenarioAgent.actAll exactCollaborators ["lookUp"] = .ok ag ∧
      ag.node.children[0]? = some ⟨⟨0, 3 / 2, 0 - 5⟩, ⟨0, 0, 0, 1⟩⟩ ∧
      (∃ ag1, ag.setState exactCollaborators ⟨⟨1, 0, 2⟩, ⟨0, 0, 0, 1⟩⟩ true =
          .ok (ag1, ag.sensors.keys) ∧
        ag.sensors.keys.Nodup ∧ ag1.sensors = ag.sensors ∧
        ag1.node.transformation =
          ⟨⟨1, 0, 2⟩, exactCollaborators.normalized ⟨0, 0, 0, 1⟩⟩ ∧
        ∀ p ∈ ag1.sensors, p.2.spec ∈ [cameraSpec "rgb"] ∧
          ag1.node.children[p.2.node]? =
            some (exactCollaborators.transformationFromSpec p.2.spec)) ∧
      (∃ ag0, ag.setState exactCollaborators ⟨⟨1, 0, 2⟩, ⟨0, 0, 0, 1⟩⟩ false = .ok (ag0, []) ∧
        ag0.sensors = ag.sensors ∧
        ag0.node.transformation =
          ⟨⟨1, 0, 2⟩, exactCollaborators.normalized ⟨0, 0, 0, 1⟩⟩ ∧
        ag0.node.children = ag.node.children) :=
  ⟨_, rfl, rfl,
    setState_sensor_reset exactCollaborators freshNode
      (configurationWith [cameraSpec "rgb"] scenarioActions) ["lookUp"] _
      ⟨⟨1, 0, 2⟩, ⟨0, 0, 0, 1⟩⟩ rfl
      (by norm_num [exactCollaborators, Vec4.dot, Rat.sqrt])⟩

/-- C6, at the failing input. The body node's parent sits at (1, 0, 0) and the
body at the parent's origin. `getState` reports the absolute position
(1, 0, 0); `setState` with that state and `resetSensors = false` writes it as
the local translation, so the body's local translation goes from (0, 0, 0) to
(1, 0, 0) and its absolute position from (1, 0, 0) to (2, 0, 0). -/
theorem getState_setState_moves_body :
    offsetAgent.node.transformation.translation = ⟨0, 0, 0⟩ ∧
      offsetAgent.node.absoluteTranslation = ⟨1, 0, 0⟩ ∧
      offsetAgent.getState ⟨⟨0, 0, 0⟩, ⟨0, 0, 0, 1⟩⟩ = ⟨⟨1, 0, 0⟩, ⟨0, 0, 0, 1⟩⟩ ∧
      ∃ ag, offsetAgent.setState exactCollaborators
          (offsetAgent.getState ⟨⟨0, 0, 0⟩, ⟨0, 0, 0, 1⟩⟩) false = .ok (ag, []) ∧
        ag.node.transformation.translation = ⟨1, 0, 0⟩ ∧
        ag.node.absoluteTranslation = ⟨2, 0, 0⟩ := by
  have hget : offsetAgent.getState ⟨⟨0, 0, 0⟩, ⟨0, 0, 0, 1⟩⟩ = ⟨⟨1, 0, 0⟩, ⟨0, 0, 0, 1⟩⟩ := by
    simp [getState, offsetAgent, create, offsetNode, freshNode, configurationWith,
      SceneNode.absoluteTranslation, SceneNode.rotation, SceneNode.setType,
      Affine.transformPoint, Affine.identity, Transformation.identity, Vec3.dot]
  have hrot : |exactCollaborators.norm (⟨0, 0, 0, 1⟩ : Vec4) - 1| <
      2 * exactCollaborators.epsilon := by
    norm_num [exactCollaborators, Vec4.dot, Rat.sqrt]
  refine ⟨rfl, ?_, hget, ?_⟩
  · simp [offsetAgent, create, offsetNode, freshNode, configurationWith,
      SceneNode.absoluteTranslation, SceneNode.setType,
      Affine.transformPoint, Affine.identity, Transformation.identity, Vec3.dot]
  · rw [hget]
    refine ⟨{ offsetAgent with
        node := (offsetAgent.node.setTranslation ⟨1, 0, 0⟩).setRotation
          (exactCollaborators.normalized ⟨0, 0, 0, 1⟩) }, ?_, rfl, ?_⟩
    · simp only [setState, hrot, if_true]
      rfl
    · simp [offsetAgent, create, offsetNode, freshNode, configurationWith,
        SceneNode.absoluteTranslation, SceneNode.setType, SceneNode.setTranslation,
        SceneNode.setRotation,
        Affine.transformPoint, Affine.identity, Transformation.identity, Vec3.dot]
      norm_num

end Agent

/-! ## Equality of configurations -/

theorem Scalar.eq_true_iff (a b : Scalar) : a.eq b = true ↔ a = b ∧ a ≠ .nan := by
  cases a <;> cases b <;> simp [Scalar.eq]

theorem zipWith_all_iff {α : Type} (f : α → α → Bool) (a b : List α) :
    (a.length == b.length && (List.zipWith f a b).all id) = true ↔
      List.Forall₂ (fun x y => f x y = true) a b := by
  induction a generalizing b with
  | nil => cases b <;> simp
  | cons x rest ih =>
    cases b with
    | nil => simp
    | cons y rest2 =>
      have := ih rest2
      simp only [Bool.and_eq_true, beq_iff_eq] at this
      simp only [List.length_cons, List.zipWith_cons_cons, List.all_cons, id_eq,
        Bool.and_eq_true, beq_iff_eq, add_left_inj, List.forall₂_cons]
      rw [← this]
      tauto

theorem forall₂_iff_eq_and {α : Type} (R : α → α → Prop) (P : α → Prop)
    (h : ∀ x y, R x y ↔ x = y ∧ P x) (a b : List α) :
    List.Forall₂ R a b ↔ a = b ∧ ∀ x ∈ a, P x := by
  induction a generalizing b with
  | nil => cases b <;> simp
  | cons x rest ih =>
    cases b with
    | nil => simp
    | cons y rest2 =>
      simp only [List.forall₂_cons, h, ih rest2, List.cons.injEq, List.mem_cons,
        forall_eq_or_imp]
      tauto

theorem StdMap.eqWith_iff {V : Type} (veq : V → V → Bool) (P : V → Prop)
    (h : ∀ x y, veq x y = true ↔ x = y ∧ P x) (a b : StdMap V) :
    StdMap.eqWith veq a b = true ↔ a = b ∧ ∀ p ∈ a, P p.2 := by
  unfold StdMap.eqWith
  rw [zipWith_all_iff]
  refine forall₂_iff_eq_and (fun p q : String × V => (p.1 == q.1 && veq p.2 q.2) = true)
    (fun p => P p.2) ?_ a b
  intro p q
  obtain ⟨k1, v1⟩ := p
  obtain ⟨k2, v2⟩ := q
  simp only [Bool.and_eq_true, beq_iff_eq, h, Prod.mk.injEq]
  tauto

theorem ActionSpec.eq_iff (a b : ActionSpec) : a.eq b = true ↔ a = b ∧ a.NumbersOnly := by
  obtain ⟨n1, m1⟩ := a
  obtain ⟨n2, m2⟩ := b
  simp only [ActionSpec.eq, Bool.and_eq_true, beq_iff_eq, ActionSpec.NumbersOnly,
    StdMap.eqWith_iff Scalar.eq (fun x => x ≠ Scalar.nan) Scalar.eq_true_iff, ActionSpec.mk.injEq]
  tauto

theorem equalVector_iff (E : Collaborators) (a b : List SensorSpec) :
    equalVector E a b = true ↔ List.Forall₂ (fun s t => E.sensorSpecEq s t = true) a b :=
  zipWith_all_iff _ a b

theorem equalMap_iff (a b : ActionSpace) :
    equalMap a b = true ↔ a = b ∧ ∀ p ∈ a, p.2.NumbersOnly := by
  unfold equalMap
  rw [zipWith_all_iff]
  refine forall₂_iff_eq_and
    (fun p q : String × ActionSpec => (p.1 == q.1 && p.2.eq q.2) = true)
    (fun p => p.2.NumbersOnly) ?_ a b
  intro p q
  obtain ⟨k1, v1⟩ := p
  obtain ⟨k2, v2⟩ := q
  simp only [Bool.and_eq_true, beq_iff_eq, ActionSpec.eq_iff, Prod.mk.injEq]
  tauto

/-- The operator `==` of configurations in terms of its eleven comparisons. -/
theorem AgentConfiguration.eq_iff_fields (E : Collaborators) (a b : AgentConfiguration) :
    a.eq E b = true ↔
      (a.height = b.height ∧ a.radius = b.radius ∧ a.mass = b.mass ∧
        a.linearAcceleration = b.linearAcceleration ∧
        a.angularAcceleration = b.angularAcceleration ∧
        a.linearFriction = b.linearFriction ∧
        a.angularFriction = b.angularFriction ∧
        a.coefficientOfRestitution = b.coefficientOfRestitution ∧
        List.Forall₂ (fun s t => E.sensorSpecEq s t = true)
          a.sensorSpecifications b.sensorSpecifications ∧
        a.actionSpace = b.actionSpace ∧ a.bodyType = b.bodyType) ∧
      a.NumbersOnly := by
  simp only [AgentConfiguration.eq, Bool.and_eq_true, beq_iff_eq, Scalar.eq_true_iff,
    equalVector_iff, equalMap_iff, AgentConfiguration.NumbersOnly]
  tauto

/-- C8, as the code has it. For every two configurations whose action spaces
are maps (keys in increasing order): `a == b` holds exactly when the eight
scalar fields are equal, the sensor specifications are equal element by
element under their own `==`, the action spaces are equal as mappings (every
name resolves to the same spec in both), the body types are equal, and no
scalar field and no actuation value of `a` is not-a-number; a configuration
holding a not-a-number is therefore unequal to every configuration; a
configuration differing from `a` in the mass alone is unequal to `a`;
`a != b` is the negation of `a == b`; and a configuration that equals itself
equals the configuration whose action space was built from the same entries in
another insertion order. -/
theorem configuration_eq_iff (E : Collaborators) (a b : AgentConfiguration)
    (ha : a.actionSpace.WF) (hb : b.actionSpace.WF) :
    (a.eq E b = true ↔
        (a.height = b.height ∧ a.radius = b.radius ∧ a.mass = b.mass ∧
          a.linearAcceleration = b.linearAcceleration ∧
          a.angularAcceleration = b.angularAcceleration ∧
          a.linearFriction = b.linearFriction ∧
          a.angularFriction = b.angularFriction ∧
          a.coefficientOfRestitution = b.coefficientOfRestitution ∧
          List.Forall₂ (fun s t => E.sensorSpecEq s t = true)
            a.sensorSpecifications b.sensorSpecifications ∧
          (∀ name, a.actionSpace.find name = b.actionSpace.find name) ∧
          a.bodyType = b.bodyType) ∧
        a.NumbersOnly) ∧
      (¬ a.NumbersOnly → a.eq E b = false) ∧
      (∀ mass, mass ≠ a.mass →
        AgentConfiguration.eq E { a with mass := mass } a = false) ∧
      a.ne E b = !(a.eq E b) ∧
      (∀ l1 l2 : List (String × ActionSpec), l1.Perm l2 → (l1.map Prod.fst).Nodup →
        AgentConfiguration.eq E { a with actionSpace := StdMap.ofList l1 }
          { a with actionSpace := StdMap.ofList l1 } = true →
        AgentConfiguration.eq E { a with actionSpace := StdMap.ofList l1 }
          { a with actionSpace := StdMap.ofList l2 } = true) := by
  refine ⟨?_, ?_, ?_, rfl, ?_⟩
  · rw [AgentConfiguration.eq_iff_fields]
    constructor
    · rintro ⟨⟨h1, h2, h3, h4, h5, h6, h7, h8, h9, h10, h11⟩, hn⟩
      exact ⟨⟨h1, h2, h3, h4, h5, h6, h7, h8, h9, fun _ => by rw [h10], h11⟩, hn⟩
    · rintro ⟨⟨h1, h2, h3, h4, h5, h6, h7, h8, h9, h10, h11⟩, hn⟩
      exact ⟨⟨h1, h2, h3, h4, h5, h6, h7, h8, h9, StdMap.ext_of_find _ _ ha hb h10, h11⟩, hn⟩
  · intro hn
    rw [← Bool.not_eq_true, AgentConfiguration.eq_iff_fields]
    exact fun h => hn h.2
  · intro mass hne
    rw [← Bool.not_eq_true, AgentConfiguration.eq_iff_fields]
    exact fun h => hne h.1.2.2.1
  · intro l1 l2 hp hnd hself
    rw [← StdMap.ofList_perm l1 l2 hp hnd]
    exact hself

theorem scenarioActions_WF : StdMap.WF scenarioActions := by
  have h1 : ("lookUp" : String) < "moveForward" := by
    rw [String.lt_iff_toList_lt]; decide
  have h2 : ("lookUp" : String) < "turnLeft" := by
    rw [String.lt_iff_toList_lt]; decide
  have h3 : ("moveForward" : String) < "turnLeft" := by
    rw [String.lt_iff_toList_lt]; decide
  simp only [StdMap.WF, StdMap.keys, scenarioActions, List.map_cons, List.map_nil,
    List.pairwise_cons, List.mem_cons, List.mem_singleton, List.not_mem_nil, or_false,
    forall_eq_or_imp, forall_eq, false_imp_iff, implies_true, List.Pairwise.nil, and_true]
  exact ⟨⟨h1, h2⟩, h3⟩

/-- Witness for C8: the scenario configuration against the same with another mass. -/
theorem configuration_eq_iff_witness :
    scenarioConfiguration.actionSpace.WF ∧ heavyConfiguration.actionSpace.WF ∧
      (scenarioConfiguration.eq exactCollaborators heavyConfiguration = true ↔
        (scenarioConfiguration.height = heavyConfiguration.height ∧
          scenarioConfiguration.radius = heavyConfiguration.radius ∧
          scenarioConfiguration.mass = heavyConfiguration.mass ∧
          scenarioConfiguration.linearAcceleration = heavyConfiguration.linearAcceleration ∧
          scenarioConfiguration.angularAcceleration = heavyConfiguration.angularAcceleration ∧
          scenarioConfiguration.linearFriction = heavyConfiguration.linearFriction ∧
          scenarioConfiguration.angularFriction = heavyConfiguration.angularFriction ∧
          scenarioConfiguration.coefficientOfRestitution =
            heavyConfiguration.coefficientOfRestitution ∧
          List.Forall₂ (fun s t => exactCollaborators.sensorSpecEq s t = true)
            scenarioConfiguration.sensorSpecifications
            heavyConfiguration.sensorSpecifications ∧
          (∀ name, scenarioConfiguration.actionSpace.find name =
            heavyConfiguration.actionSpace.find name) ∧
          scenarioConfiguration.bodyType = heavyConfiguration.bodyType) ∧
        scenarioConfiguration.NumbersOnly) ∧
      (¬ scenarioConfiguration.NumbersOnly →
        scenarioConfiguration.eq exactCollaborators heavyConfiguration = false) ∧
      (∀ mass, mass ≠ scenarioConfiguration.mass →
        AgentConfiguration.eq exactCollaborators { scenarioConfiguration with mass := mass }
          scenarioConfiguration = false) ∧
      scenarioConfiguration.ne exactCollaborators heavyConfiguration =
        !(scenarioConfiguration.eq exactCollaborators heavyConfiguration) ∧
      (∀ l1 l2 : List (String × ActionSpec), l1.Perm l2 → (l1.map Prod.fst).Nodup →
        AgentConfiguration.eq exactCollaborators
          { scenarioConfiguration with actionSpace := StdMap.ofList l1 }
          { scenarioConfiguration with actionSpace := StdMap.ofList l1 } = true →
        AgentConfiguration.eq exactCollaborators
          { scenarioConfiguration with actionSpace := StdMap.ofList l1 }
          { scenarioConfiguration with actionSpace := StdMap.ofList l2 } = true) :=
  ⟨scenarioActions_WF, scenarioActions_WF,
    configuration_eq_iff exactCollaborators scenarioConfiguration heavyConfiguration
      scenarioActions_WF scenarioActions_WF⟩

/-- Counterexample to C8 as stated: a configuration whose mass is not-a-number
has, against itself, all eight scalar fields, the sensor specifications, the
action space and the body type identical, and yet does not equal itself. -/
theorem configuration_nan_counterexample :
    nanConfiguration.actionSpace.WF ∧
      nanConfiguration.eq exactCollaborators nanConfiguration = false ∧
      nanConfiguration.ne exactCollaborators nanConfiguration = true ∧
      ¬ (nanConfiguration.eq exactCollaborators nanConfiguration = true ↔
        nanConfiguration.height = nanConfiguration.height ∧
        nanConfiguration.radius = nanConfiguration.radius ∧
        nanConfiguration.mass = nanConfiguration.mass ∧
        nanConfiguration.linearAcceleration = nanConfiguration.linearAcceleration ∧
        nanConfiguration.angularAcceleration = nanConfiguration.angularAcceleration ∧
        nanConfiguration.linearFriction = nanConfiguration.linearFriction ∧
        nanConfiguration.angularFriction = nanConfiguration.angularFriction ∧
        nanConfiguration.coefficientOfRestitution =
          nanConfiguration.coefficientOfRestitution ∧
        nanConfiguration.sensorSpecifications = nanConfiguration.sensorSpecifications ∧
        (∀ name, nanConfiguration.actionSpace.find name =
          nanConfiguration.actionSpace.find name) ∧
        nanConfiguration.bodyType = nanConfiguration.bodyType) := by
  have hfalse : nanConfiguration.eq exactCollaborators nanConfiguration = false := by
    rw [← Bool.not_eq_true, AgentConfiguration.eq_iff_fields]
    intro h
    exact h.2.2.2.1 rfl
  refine ⟨scenarioActions_WF, hfalse, ?_, ?_⟩
  · simp [AgentConfiguration.ne, hfalse]
  · intro h
    have := h.mpr ⟨rfl, rfl, rfl, rfl, rfl, rfl, rfl, rfl, rfl, fun _ => rfl, rfl⟩
    rw [hfalse] at this
    cases this

end esp
